import Mathlib

/-!
Verification of the FQDN identity-lifecycle subsystem of the Cilium daemon
(daemon FQDN test support code and the components it exercises).

The allocator under test, `FakeRefcountingIdentityAllocator` with its methods
`AllocateCIDRsForIPs`, `ReleaseCIDRIdentitiesByID` and
`IdentityReferenceCounter`, is embedded directly from the source. The
reference-counting container, the Name Manager, the Selector Cache update,
and the shard-lock index computation are repository components whose code is
not in the source tree here (only their callers and tests are); they are
modelled from the specification, each marked as such in its doc comment.
-/

namespace Cilium

/-- An IPv4 address as four octets, the form `net.IPv4(a,b,c,d)` produces. -/
structure IPv4 where
  b0 : Nat
  b1 : Nat
  b2 : Nat
  b3 : Nat
deriving DecidableEq, Repr

/-- Modelled from the spec: the Shard Lock Pool hashes each IP address into
one of a fixed number of slots (128, the size installed by `SetUpTest`); the
hash is the numeric value of the address modulo the pool size, consistent
with the expectations of `Test_getMutexesForResponseIPs` (the slot of
`1.1.1.i` is `i` for `i < 64`, and every `1.i.1.1` falls in slot 1). -/
def hashIP (ip : IPv4) : Nat :=
  (ip.b0 * 16777216 + ip.b1 * 65536 + ip.b2 * 256 + ip.b3) % 128

/-- Canonicalize a list of slot indices: collapse duplicates and return the
set in ascending order. This models the Go pattern of accumulating indices
in a set and sorting the keys. -/
def canonicalizeLocks (l : List Nat) : List Nat :=
  (l.dedup).insertionSort (· ≤ ·)

/-- Modelled from the spec: `locksFor(ip-list)` returns the deduplicated set
of shard-lock indices for the response IPs, in ascending canonical order. -/
def getMutexesForResponseIPs (ips : List IPv4) : List Nat :=
  canonicalizeLocks (ips.map hashIP)

/-- A reference counter keyed by identity number: the embedding of the
map underlying `counter.IntCounter`, as an association list with unique
keys and strictly positive stored counts. -/
abbrev IntCounter := List (Int × Nat)

/-- Modelled from the spec: incrementing a counter key (`Add`): the stored
count of the key grows by one, a missing key is created with count one. -/
def counterAdd : IntCounter → Int → IntCounter
  | [], x => [(x, 1)]
  | (k, n) :: rest, x =>
      if k = x then (k, n + 1) :: rest else (k, n) :: counterAdd rest x

/-- Modelled from the spec: decrementing a counter key (`Delete`): the stored
count of the key drops by one, and the entry is removed from the table
exactly when the count returns to zero. -/
def counterDelete : IntCounter → Int → IntCounter
  | [], _ => []
  | (k, n) :: rest, x =>
      if k = x then (if n ≤ 1 then rest else (k, n - 1) :: rest)
      else (k, n) :: counterDelete rest x

/-- The count stored for a key, zero when the key is absent. -/
def lookupCount : IntCounter → Int → Nat
  | [], _ => 0
  | (k, n) :: rest, x => if k = x then n else lookupCount rest x

/-- Membership of a key in the reference-count table. -/
def memCounter (c : IntCounter) (x : Int) : Bool :=
  c.any (fun p => p.fst = x)

/-- Number of entries of the table, the `len` of the Go map. -/
def counterLen (c : IntCounter) : Nat := c.length

/-- Well-formedness of a counter as maintained by `counterAdd` and
`counterDelete`: keys are unique and every stored count is positive. -/
def CounterWF (c : IntCounter) : Prop :=
  (c.map Prod.fst).Nodup ∧ ∀ p ∈ c, 0 < p.snd

instance (c : IntCounter) : Decidable (CounterWF c) := by
  unfold CounterWF; infer_instance

/-- The fake reference-counting identity allocator of the daemon FQDN tests:
a monotone fresh-identity counter, a stable IP-to-identity table and the
per-identity reference counts. -/
structure FakeRefcountingIdentityAllocator where
  currentID : Int
  ipToIdentity : List (IPv4 × Int)
  identityCount : IntCounter
deriving DecidableEq

/-- The constructor of the fake allocator: fresh identities start at 1000,
both tables start empty. -/
def NewFakeIdentityAllocator : FakeRefcountingIdentityAllocator :=
  { currentID := 1000, ipToIdentity := [], identityCount := [] }

/-- Lookup of an IP in the allocator's IP-to-identity table. -/
def lookupIP : List (IPv4 × Int) → IPv4 → Option Int
  | [], _ => none
  | (j, id) :: rest, ip => if j = ip then some id else lookupIP rest ip

/-- One step of `AllocateCIDRsForIPs`: a known IP keeps its identity, an
unknown IP is bound to the next fresh identity; either way the reference
count of the identity is incremented and the identity appended to the
result list. -/
def allocateStep (acc : List Int × FakeRefcountingIdentityAllocator) (ip : IPv4) :
    List Int × FakeRefcountingIdentityAllocator :=
  let g := acc.snd
  match lookupIP g.ipToIdentity ip with
  | some id =>
      (acc.fst ++ [id], { g with identityCount := counterAdd g.identityCount id })
  | none =>
      let id := g.currentID
      (acc.fst ++ [id],
       { g with
          ipToIdentity := g.ipToIdentity ++ [(ip, id)]
          currentID := id + 1
          identityCount := counterAdd g.identityCount id })

/-- The effect of `AllocateCIDRsForIPs` on the allocator state together with
the identities returned, before wrapping in the error type. -/
def allocateCore (f : FakeRefcountingIdentityAllocator) (ips : List IPv4) :
    List Int × FakeRefcountingIdentityAllocator :=
  ips.foldl allocateStep ([], f)

/-- `AllocateCIDRsForIPs` of the fake allocator: reference counting for
IP/identity allocation; it always returns a nil error. -/
def AllocateCIDRsForIPs (f : FakeRefcountingIdentityAllocator) (ips : List IPv4) :
    Except String (List Int × FakeRefcountingIdentityAllocator) :=
  .ok (allocateCore f ips)

/-- `ReleaseCIDRIdentitiesByID` of the fake allocator: deletes one reference
per listed identity from the reference-count table; the IP-to-identity
mapping and the fresh-identity counter are left alone. -/
def ReleaseCIDRIdentitiesByID (f : FakeRefcountingIdentityAllocator)
    (identities : List Int) : FakeRefcountingIdentityAllocator :=
  { f with identityCount := identities.foldl counterDelete f.identityCount }

/-- `IdentityReferenceCounter` of the fake allocator: the reference-count
table itself. -/
def IdentityReferenceCounter (f : FakeRefcountingIdentityAllocator) : IntCounter :=
  f.identityCount

/-- Modelled from the spec: `dns.FQDN` — the fully-qualified, dot-terminated,
case-normalized form of a domain name. -/
def FQDN (s : String) : String :=
  let t := String.mk (s.data.map Char.toLower)
  if t.data.getLast? = some '.' then t else t ++ "."

/-- Modelled from the spec: shell-style glob matching of a wildcard pattern
against a domain string, where a star matches any (possibly empty) sequence
of characters, including across label boundaries. The fuel argument only
bounds the recursion depth: every recursive call strictly decreases the sum
of the two list lengths, so any fuel above that sum yields the fixpoint. -/
def globMatchFuel : Nat → List Char → List Char → Bool
  | 0, _, _ => false
  | _ + 1, [], [] => true
  | _ + 1, [], _ :: _ => false
  | fuel + 1, '*' :: ps, [] => globMatchFuel fuel ps []
  | fuel + 1, '*' :: ps, c :: cs =>
      globMatchFuel fuel ps (c :: cs) || globMatchFuel fuel ('*' :: ps) cs
  | _ + 1, _ :: _, [] => false
  | fuel + 1, p :: ps, c :: cs => p = c && globMatchFuel fuel ps cs

/-- Glob matching with sufficient fuel. -/
def globMatch (p s : List Char) : Bool :=
  globMatchFuel (p.length + s.length + 1) p s

/-- An FQDN policy selector: either an exact match name or a wildcard match
pattern (the unused field is empty). -/
structure FQDNSelector where
  matchName : String
  matchPattern : String
deriving DecidableEq, Repr

/-- Modelled from the spec: an exact-name selector matches only the
fully-qualified form of that exact name; a wildcard-pattern selector matches
with glob semantics against the fully-qualified, dot-terminated, lowercased
domain string. -/
def selectorMatches (sel : FQDNSelector) (domain : String) : Bool :=
  if sel.matchName ≠ "" then FQDN sel.matchName = FQDN domain
  else globMatch (FQDN sel.matchPattern).data (FQDN domain).data

/-- The Name Manager state: the registered selectors with their current
identity sets, the observed DNS records, and the shared identity
allocator. -/
structure NMState where
  selectors : List (FQDNSelector × List Int)
  cache : List (String × List IPv4)
  alloc : FakeRefcountingIdentityAllocator
deriving DecidableEq

/-- Modelled from the spec: attributing one IP to one selector. A reference
is taken per distinct (selector, IP) attribution: if the IP's identity is
already in the selector's set the state is unchanged; otherwise the identity
is allocated through the Identity Allocator (incrementing its reference
count, idempotently reusing the identity of an already-known IP) and added
to the selector's set. Fails only if the allocator fails. -/
def attributeOneIP (a : FakeRefcountingIdentityAllocator) (idset : List Int)
    (ip : IPv4) : Except String (FakeRefcountingIdentityAllocator × List Int) :=
  match lookupIP a.ipToIdentity ip with
  | some id =>
      if idset.contains id then .ok (a, idset)
      else do
        let r ← AllocateCIDRsForIPs a [ip]
        .ok (r.snd, idset ++ r.fst)
  | none => do
      let r ← AllocateCIDRsForIPs a [ip]
      .ok (r.snd, idset ++ r.fst)

/-- Attribution of a list of IPs to one selector, left to right. -/
def attributeIPs (a : FakeRefcountingIdentityAllocator) (idset : List Int)
    (ips : List IPv4) : Except String (FakeRefcountingIdentityAllocator × List Int) :=
  ips.foldlM (fun acc ip => attributeOneIP acc.fst acc.snd ip) (a, idset)

/-- Recording a DNS observation in the Name Manager's record cache. -/
def updateCache (cache : List (String × List IPv4)) (domain : String)
    (ips : List IPv4) : List (String × List IPv4) :=
  cache ++ [(domain, ips)]

/-- Modelled from the spec: `ingestDNSRecord` — under the shard locks, record
the observation, and for each registered selector matching the domain
allocate identities for the IPs and update the selector's identity set.
Fails only if the underlying allocator fails; matching never fails. -/
def ingestDNSRecord (st : NMState) (domain : String) (ips : List IPv4) :
    Except String NMState := do
  let r ← st.selectors.foldlM
    (fun (acc : List (FQDNSelector × List Int) × FakeRefcountingIdentityAllocator) p =>
      if selectorMatches p.fst domain then do
        let q ← attributeIPs acc.snd p.snd ips
        .ok (acc.fst ++ [(p.fst, q.snd)], q.fst)
      else .ok (acc.fst ++ [p], acc.snd))
    ([], st.alloc)
  .ok { selectors := r.fst, cache := updateCache st.cache domain ips, alloc := r.snd }

/-- Modelled from the spec: `UpdateGenerateDNS` ingests every (domain, IPs)
record of the update. -/
def UpdateGenerateDNS (st : NMState) (records : List (String × List IPv4)) :
    Except String NMState :=
  records.foldlM (fun s r => ingestDNSRecord s r.fst r.snd) st

/-- Modelled from the spec: `RegisterForIdentityUpdatesLocked` adds a
selector and immediately evaluates it against the already-observed DNS
records, allocating identities for every known matching IP. -/
def RegisterForIdentityUpdatesLocked (st : NMState) (sel : FQDNSelector) :
    Except String NMState :=
  if st.selectors.any (fun p => p.fst == sel) then .ok st
  else do
    let r ← st.cache.foldlM
      (fun (acc : FakeRefcountingIdentityAllocator × List Int) e =>
        if selectorMatches sel e.fst then attributeIPs acc.fst acc.snd e.snd
        else .ok acc)
      (st.alloc, [])
    .ok { st with selectors := st.selectors ++ [(sel, r.snd)], alloc := r.fst }

/-- Modelled from the spec: the Selector Cache update `UpdateFQDNSelector`
replaces a registered selector's identity set; every identity no longer
present has its reference released through the allocator (the asynchronous
release observed after the wait-group completes). -/
def UpdateFQDNSelector (st : NMState) (sel : FQDNSelector) (newSet : List Int) :
    NMState :=
  match st.selectors.find? (fun p => p.fst == sel) with
  | none => st
  | some p =>
      let released := p.snd.filter (fun id => !(newSet.contains id))
      { st with
          alloc := ReleaseCIDRIdentitiesByID st.alloc released
          selectors := st.selectors.map
            (fun q => if q.fst == sel then (q.fst, newSet) else q) }

/-- A DNS message as the notification callback sees it: whether it is a
response, the question name, and the answer IPs. -/
structure DNSMsg where
  response : Bool
  qname : String
  answerIPs : List IPv4

/-- Modelled from the spec: `notifyOnDNSMsg` — the single entry point per
observed DNS message; non-response messages are ignored, response messages
drive `ingestDNSRecord` for the fully-qualified question name. -/
def notifyOnDNSMsg (st : NMState) (msg : DNSMsg) : Except String NMState :=
  if msg.response then ingestDNSRecord st (FQDN msg.qname) msg.answerIPs
  else .ok st

/-- The exact selector for cilium.io of the reference-counting test. -/
def ciliumIOSel : FQDNSelector := { matchName := "cilium.io", matchPattern := "" }

/-- The wildcard-pattern selector of the reference-counting test. -/
def ciliumIOSelMatchPattern : FQDNSelector :=
  { matchName := "", matchPattern := "*cilium.io." }

/-- The exact selector for ebpf.io of the reference-counting test. -/
def ebpfIOSel : FQDNSelector := { matchName := "ebpf.io", matchPattern := "" }

/-- The selectors registered by the test, in registration order. -/
def selectorsToAdd : List FQDNSelector :=
  [ciliumIOSel, ciliumIOSelMatchPattern, ebpfIOSel]

/-- The address 192.0.2.3 resolved for cilium.io. -/
def ciliumIP : IPv4 := ⟨192, 0, 2, 3⟩

/-- The address 192.0.2.4 resolved for ebpf.io. -/
def ebpfIP : IPv4 := ⟨192, 0, 2, 4⟩

/-- The DNS record mapping the fully-qualified cilium.io to 192.0.2.3. -/
def ciliumDNSRecord : List (String × List IPv4) := [(FQDN "cilium.io", [ciliumIP])]

/-- The DNS record mapping the fully-qualified ebpf.io to 192.0.2.4. -/
def ebpfDNSRecord : List (String × List IPv4) := [(FQDN "ebpf.io", [ebpfIP])]

/-- The daemon state after `SetUpTest`: no selectors, no records, a fresh
fake allocator. -/
def initialState : NMState :=
  { selectors := [], cache := [], alloc := NewFakeIdentityAllocator }

/-- The state after registering the three selectors. -/
def afterRegistration : Except String NMState :=
  selectorsToAdd.foldlM RegisterForIdentityUpdatesLocked initialState

/-- The state after the first ingestion of the cilium.io record. -/
def afterFirstIngest : Except String NMState :=
  afterRegistration.bind (fun s => UpdateGenerateDNS s ciliumDNSRecord)

/-- The state after ingesting the cilium.io record a second time. -/
def afterSecondIngest : Except String NMState :=
  afterFirstIngest.bind (fun s => UpdateGenerateDNS s ciliumDNSRecord)

/-- The state after additionally ingesting the ebpf.io record. -/
def afterEbpfIngest : Except String NMState :=
  afterSecondIngest.bind (fun s => UpdateGenerateDNS s ebpfDNSRecord)

/-- The state after updating the exact cilium.io selector's identity set to
the empty set. -/
def afterRemoveExact : Except String NMState :=
  afterEbpfIngest.map (fun s => UpdateFQDNSelector s ciliumIOSel [])

/-- The state after updating every registered selector's identity set to the
empty set and waiting for the releases. -/
def afterTeardown : Except String NMState :=
  afterRemoveExact.map (fun s =>
    selectorsToAdd.foldl (fun t sel => UpdateFQDNSelector t sel []) s)

/-- Canonicalized lock-index lists are sorted without duplicates. -/
theorem canonicalizeLocks_nodup (l : List Nat) : (canonicalizeLocks l).Nodup :=
  ((List.perm_insertionSort _ _).nodup_iff).mpr (List.nodup_dedup l)

/-- Canonicalized lock-index lists are strictly ascending. -/
theorem canonicalizeLocks_sorted_lt (l : List Nat) :
    (canonicalizeLocks l).Sorted (· < ·) := by
  have hs : (canonicalizeLocks l).Sorted (· ≤ ·) := List.sorted_insertionSort _ _
  exact hs.lt_of_le (canonicalizeLocks_nodup l)

/-- Canonicalization is invariant under reordering of the index list, so the
iteration order of the intermediate index set cannot influence the result. -/
theorem canonicalizeLocks_perm_invariant (l₁ l₂ : List Nat) (h : l₁.Perm l₂) :
    canonicalizeLocks l₁ = canonicalizeLocks l₂ := by
  apply List.eq_of_perm_of_sorted (r := (· ≤ ·))
  · exact ((List.perm_insertionSort _ _).trans h.dedup).trans
      (List.perm_insertionSort _ _).symm
  · exact List.sorted_insertionSort _ _
  · exact List.sorted_insertionSort _ _

/-- Appending a fresh binding to the IP table makes its key retrievable. -/
theorem lookupIP_append_self (t : List (IPv4 × Int)) (ip : IPv4) (id : Int)
    (h : lookupIP t ip = none) : lookupIP (t ++ [(ip, id)]) ip = some id := by
  induction t with
  | nil => simp [lookupIP]
  | cons p rest ih =>
      obtain ⟨j, v⟩ := p
      by_cases hj : j = ip
      · rw [lookupIP, if_pos hj] at h
        exact absurd h (by simp)
      · rw [List.cons_append, lookupIP, if_neg hj]
        rw [lookupIP, if_neg hj] at h
        exact ih h

/-- A key outside the table has count zero. -/
theorem lookupCount_eq_zero_of_not_mem (c : IntCounter) (y : Int)
    (h : y ∉ c.map Prod.fst) : lookupCount c y = 0 := by
  induction c with
  | nil => rfl
  | cons p rest ih =>
      obtain ⟨k, n⟩ := p
      simp only [List.map_cons, List.mem_cons, not_or] at h
      rw [lookupCount, if_neg (fun hk => h.1 hk.symm)]
      exact ih h.2

/-- Decomposition of well-formedness at a cons cell. -/
theorem counterWF_cons (k : Int) (n : Nat) (rest : IntCounter)
    (h : CounterWF ((k, n) :: rest)) :
    CounterWF rest ∧ k ∉ rest.map Prod.fst ∧ 0 < n := by
  obtain ⟨hnd, hpos⟩ := h
  rw [List.map_cons, List.nodup_cons] at hnd
  exact ⟨⟨hnd.2, fun p hp => hpos p (List.mem_cons_of_mem _ hp)⟩, hnd.1,
    hpos (k, n) (List.mem_cons_self _ _)⟩

/-- Deleting a reference decrements the key's count by exactly one and
leaves every other count unchanged. -/
theorem lookupCount_counterDelete (c : IntCounter) (x y : Int) (h : CounterWF c) :
    lookupCount (counterDelete c x) y
      = lookupCount c y - (if y = x then 1 else 0) := by
  induction c with
  | nil => simp [counterDelete, lookupCount]
  | cons p rest ih =>
      obtain ⟨k, n⟩ := p
      obtain ⟨hwf, hk, hn⟩ := counterWF_cons k n rest h
      have hz := lookupCount_eq_zero_of_not_mem rest k hk
      by_cases hkx : k = x <;> by_cases hky : k = y
      · subst hkx; subst hky
        by_cases hn1 : n ≤ 1 <;>
          simp [counterDelete, lookupCount, hn1, hz]
      · subst hkx
        by_cases hn1 : n ≤ 1 <;>
          simp [counterDelete, lookupCount, hn1, hky, Ne.symm hky]
      · subst hky
        simp [counterDelete, lookupCount, hkx]
      · simp only [counterDelete, if_neg hkx, lookupCount, if_neg hky]
        exact ih hwf

/-- Deletion never introduces a key: the keys of the deleted table form a
sublist of the original keys. -/
theorem keys_counterDelete_sublist (c : IntCounter) (x : Int) :
    ((counterDelete c x).map Prod.fst).Sublist (c.map Prod.fst) := by
  induction c with
  | nil => simp [counterDelete]
  | cons p rest ih =>
      obtain ⟨k, n⟩ := p
      by_cases hk : k = x
      · by_cases hn : n ≤ 1 <;>
          simp [counterDelete, hk, hn, List.sublist_cons_self, List.Sublist.refl]
      · simpa [counterDelete, hk] using ih.cons₂ k

/-- Deletion preserves well-formedness of the reference-count table. -/
theorem counterWF_counterDelete (c : IntCounter) (x : Int) (h : CounterWF c) :
    CounterWF (counterDelete c x) := by
  induction c with
  | nil => exact h
  | cons p rest ih =>
      obtain ⟨k, n⟩ := p
      obtain ⟨hwf, hk, hn⟩ := counterWF_cons k n rest h
      by_cases hkx : k = x
      · by_cases hn1 : n ≤ 1
        · simpa [counterDelete, hkx, hn1] using hwf
        · constructor
          · simpa [counterDelete, hkx, hn1] using (h.1 : _)
          · intro p hp
            simp only [counterDelete, if_pos hkx, if_neg hn1, List.mem_cons] at hp
            rcases hp with hp | hp
            · subst hp; simp; omega
            · exact hwf.2 p hp
      · constructor
        · have := (ih hwf).1
          simp only [counterDelete, if_neg hkx, List.map_cons, List.nodup_cons]
          refine ⟨fun hmem => hk ?_, this⟩
          exact (keys_counterDelete_sublist rest x).subset hmem
        · intro p hp
          simp only [counterDelete, if_neg hkx, List.mem_cons] at hp
          rcases hp with hp | hp
          · subst hp; exact hn
          · exact (ih hwf).2 p hp

/-- In a well-formed table, a key is present exactly when its count is
positive. -/
theorem memCounter_iff_pos (c : IntCounter) (y : Int) (h : CounterWF c) :
    memCounter c y = true ↔ 0 < lookupCount c y := by
  induction c with
  | nil => simp [memCounter, lookupCount]
  | cons p rest ih =>
      obtain ⟨k, n⟩ := p
      obtain ⟨hwf, hk, hn⟩ := counterWF_cons k n rest h
      by_cases hky : k = y
      · subst hky
        simp [memCounter, lookupCount, hn]
      · simp only [memCounter, List.any_cons, lookupCount, if_neg hky]
        simp only [memCounter] at ih
        simp [hky, ih hwf]

/-- Folding deletions over a list of identities subtracts, for each key, the
number of its occurrences in the list. -/
theorem lookupCount_foldl_counterDelete (ids : List Int) (c : IntCounter)
    (x : Int) (h : CounterWF c) :
    lookupCount (ids.foldl counterDelete c) x = lookupCount c x - ids.count x := by
  induction ids generalizing c with
  | nil => simp
  | cons i rest ih =>
      rw [List.foldl_cons, ih _ (counterWF_counterDelete _ _ h),
          lookupCount_counterDelete _ _ _ h, List.count_cons]
      by_cases hxi : x = i
      · subst hxi; simp; omega
      · have hix : ¬ i = x := fun hh => hxi hh.symm
        simp [hxi, hix]

/-- Folded deletion preserves well-formedness. -/
theorem counterWF_foldl_counterDelete (ids : List Int) (c : IntCounter)
    (h : CounterWF c) : CounterWF (ids.foldl counterDelete c) := by
  induction ids generalizing c with
  | nil => exact h
  | cons i rest ih =>
      rw [List.foldl_cons]
      exact ih _ (counterWF_counterDelete _ _ h)

/-- Attribution of a single IP never produces an error. -/
theorem attributeOneIP_isOk (a : FakeRefcountingIdentityAllocator)
    (idset : List Int) (ip : IPv4) :
    ∃ v, attributeOneIP a idset ip = .ok v := by
  unfold attributeOneIP AllocateCIDRsForIPs
  split
  · split
    · exact ⟨_, rfl⟩
    · exact ⟨_, rfl⟩
  · exact ⟨_, rfl⟩

/-- A monadic fold of a step that never errors never errors. -/
theorem foldlM_except_ok {α β : Type} (f : β → α → Except String β)
    (hf : ∀ b a, ∃ v, f b a = .ok v) (l : List α) :
    ∀ b, ∃ v, l.foldlM f b = .ok v := by
  induction l with
  | nil => exact fun b => ⟨b, rfl⟩
  | cons a rest ih =>
      intro b
      obtain ⟨v, hv⟩ := hf b a
      obtain ⟨w, hw⟩ := ih v
      refine ⟨w, ?_⟩
      rw [List.foldlM_cons, hv]
      simpa using hw

/-- Attribution of an IP list never produces an error. -/
theorem attributeIPs_isOk (a : FakeRefcountingIdentityAllocator)
    (idset : List Int) (ips : List IPv4) :
    ∃ v, attributeIPs a idset ips = .ok v := by
  unfold attributeIPs
  exact foldlM_except_ok _ (fun b ip => attributeOneIP_isOk b.fst b.snd ip)
    ips (a, idset)

/-- The per-selector step of ingestion never produces an error. -/
theorem ingest_step_isOk (domain : String) (ips : List IPv4)
    (acc : List (FQDNSelector × List Int) × FakeRefcountingIdentityAllocator)
    (p : FQDNSelector × List Int) :
    ∃ v, (if selectorMatches p.fst domain then do
            let q ← attributeIPs acc.snd p.snd ips
            Except.ok (acc.fst ++ [(p.fst, q.snd)], q.fst)
          else Except.ok (acc.fst ++ [p], acc.snd)) = .ok v := by
  by_cases hm : selectorMatches p.fst domain
  · rw [if_pos hm]
    obtain ⟨q, hq⟩ := attributeIPs_isOk acc.snd p.snd ips
    exact ⟨_, by rw [hq]; rfl⟩
  · exact ⟨_, by rw [if_neg hm]⟩

/-- Ingestion of one DNS record never produces an error. -/
theorem ingestDNSRecord_isOk (st : NMState) (domain : String) (ips : List IPv4) :
    ∃ v, ingestDNSRecord st domain ips = .ok v := by
  unfold ingestDNSRecord
  obtain ⟨r, hr⟩ := foldlM_except_ok _
    (fun acc p => ingest_step_isOk domain ips acc p) st.selectors ([], st.alloc)
  exact ⟨_, by rw [hr]; rfl⟩

/-- A DNS update never produces an error. -/
theorem UpdateGenerateDNS_isOk (st : NMState)
    (records : List (String × List IPv4)) :
    ∃ v, UpdateGenerateDNS st records = .ok v := by
  unfold UpdateGenerateDNS
  exact foldlM_except_ok _ (fun s r => ingestDNSRecord_isOk s r.fst r.snd)
    records st

/-- The DNS-message callback never produces an error. -/
theorem notifyOnDNSMsg_isOk (st : NMState) (msg : DNSMsg) :
    ∃ v, notifyOnDNSMsg st msg = .ok v := by
  unfold notifyOnDNSMsg
  by_cases hr : msg.response
  · rw [if_pos hr]; exact ingestDNSRecord_isOk _ _ _
  · exact ⟨_, by rw [if_neg hr]⟩

/-- C1: after registering the cilium.io exact, the star-cilium.io pattern and
the ebpf.io exact selectors, ingesting the DNS records, and then updating
every registered selector's identity set to the empty set (letting the
asynchronous releases complete), the Identity Allocator's reference-count
table is empty: no identity reference is leaked. -/
theorem teardown_leaves_refcount_table_empty :
    afterTeardown.map (fun s => IdentityReferenceCounter s.alloc) = .ok [] := by
  rfl

/-- C2: ingesting one DNS record mapping the fully-qualified cilium.io to
192.0.2.3 after registering the three selectors allocates exactly one
identity: the reference-count table has exactly one entry, and both the
exact selector and the pattern selector reference the same identity 1000
while the ebpf.io selector's set stays empty. -/
theorem firstIngest_allocates_exactly_one_identity :
    afterFirstIngest.map
        (fun s => (counterLen (IdentityReferenceCounter s.alloc),
                   s.selectors.map Prod.snd))
      = .ok (1, [[1000], [1000], []]) := by
  rfl

/-- C3: ingesting the same (domain, IP) mapping a second time is idempotent
with respect to the set of allocated identities: the reference-count table
still has exactly one entry, and the IP-to-identity binding is unchanged,
so no duplicate identity was created for the re-allocated IP. -/
theorem secondIngest_idempotent :
    afterSecondIngest.map
        (fun s => (counterLen (IdentityReferenceCounter s.alloc),
                   s.alloc.ipToIdentity))
      = afterFirstIngest.map
          (fun s => (1, s.alloc.ipToIdentity)) := by
  rfl

/-- C4: ingesting the ebpf.io record with the distinct IP 192.0.2.4 yields
exactly two identities in total, and each distinct IP is bound to exactly
one numeric identity: 192.0.2.3 to 1000 and 192.0.2.4 to 1001, shared
across all selectors that claim it. -/
theorem ebpfIngest_two_distinct_identities :
    afterEbpfIngest.map
        (fun s => (counterLen (IdentityReferenceCounter s.alloc),
                   lookupIP s.alloc.ipToIdentity ciliumIP,
                   lookupIP s.alloc.ipToIdentity ebpfIP))
      = .ok (2, some 1000, some 1001) := by
  rfl

/-- C5: after removing only the exact cilium.io selector, identity 1000 is
still referenced by the pattern selector: the reference-count table still
contains both identities, the pattern selector's set still holds 1000 and
the exact selector's set is empty. -/
theorem removeExactSelector_identity_still_referenced :
    afterRemoveExact.map
        (fun s => (counterLen (IdentityReferenceCounter s.alloc),
                   memCounter (IdentityReferenceCounter s.alloc) 1000,
                   memCounter (IdentityReferenceCounter s.alloc) 1001,
                   s.selectors.map Prod.snd))
      = .ok (2, true, true, [[], [1000], [1001]]) := by
  rfl

/-- C6: the shard-lock index computation returns a deduplicated set of slot
indices in ascending order for every input list; the 64 addresses 1.1.1.0
through 1.1.1.63 yield 64 indices with first 0 and last 63, and the 64
addresses 1.i.1.1 all collapse to the single lock index 1. -/
theorem getMutexesForResponseIPs_dedup_sorted :
    (∀ ips : List IPv4, (getMutexesForResponseIPs ips).Sorted (· < ·)
        ∧ (getMutexesForResponseIPs ips).Nodup)
    ∧ ((getMutexesForResponseIPs
          ((List.range 64).map (fun i => ⟨1, 1, 1, i⟩))).length = 64
        ∧ (getMutexesForResponseIPs
            ((List.range 64).map (fun i => ⟨1, 1, 1, i⟩))).head? = some 0
        ∧ (getMutexesForResponseIPs
            ((List.range 64).map (fun i => ⟨1, 1, 1, i⟩))).getLast? = some 63)
    ∧ getMutexesForResponseIPs ((List.range 64).map (fun i => ⟨1, i, 1, 1⟩))
        = [1] := by
  refine ⟨fun ips => ⟨canonicalizeLocks_sorted_lt _, canonicalizeLocks_nodup _⟩,
    ⟨?_, ?_, ?_⟩, ?_⟩ <;> decide

/-- C7: the shard-lock index computation is deterministic: whatever order
the hashed slot indices of the response IPs are enumerated in (any
permutation of them), canonicalization produces the very same index list
that `getMutexesForResponseIPs` returns for that input, and each IP always
hashes to the same slot. -/
theorem getMutexesForResponseIPs_deterministic (ips : List IPv4) (l : List Nat)
    (h : l.Perm (ips.map hashIP)) :
    canonicalizeLocks l = getMutexesForResponseIPs ips :=
  canonicalizeLocks_perm_invariant l (ips.map hashIP) h

/-- Witness for C7: the indices of 1.1.1.2 and 1.1.1.1 enumerated in the
reversed order still canonicalize to the computed lock list. -/
theorem getMutexesForResponseIPs_deterministic_witness :
    ([1, 2] : List Nat).Perm (([⟨1, 1, 1, 2⟩, ⟨1, 1, 1, 1⟩] : List IPv4).map hashIP)
    ∧ canonicalizeLocks [1, 2]
        = getMutexesForResponseIPs [⟨1, 1, 1, 2⟩, ⟨1, 1, 1, 1⟩] :=
  ⟨by decide, getMutexesForResponseIPs_deterministic _ _ (by decide)⟩

/-- C8: on a well-formed reference-count table, `ReleaseCIDRIdentitiesByID`
decrements the count of each identity by exactly one per occurrence in the
given list, and an identity remains in the table exactly when its count has
not yet returned to zero. -/
theorem ReleaseCIDRIdentitiesByID_refcount (f : FakeRefcountingIdentityAllocator)
    (ids : List Int) (x : Int) (h : CounterWF (IdentityReferenceCounter f)) :
    lookupCount (IdentityReferenceCounter (ReleaseCIDRIdentitiesByID f ids)) x
      = lookupCount (IdentityReferenceCounter f) x - ids.count x
    ∧ (memCounter (IdentityReferenceCounter (ReleaseCIDRIdentitiesByID f ids)) x
          = true
        ↔ ids.count x < lookupCount (IdentityReferenceCounter f) x) := by
  have h1 := lookupCount_foldl_counterDelete ids f.identityCount x h
  have h2 := memCounter_iff_pos (ids.foldl counterDelete f.identityCount) x
    (counterWF_foldl_counterDelete ids f.identityCount h)
  simp only [IdentityReferenceCounter, ReleaseCIDRIdentitiesByID]
  refine ⟨h1, ?_⟩
  rw [h2, h1]
  omega

/-- Witness for C8: releasing identity 1000 from a table holding 1000 with
count two and 1001 with count one leaves 1000 present with count one. -/
theorem ReleaseCIDRIdentitiesByID_refcount_witness :
    CounterWF (IdentityReferenceCounter
      { currentID := 1002, ipToIdentity := [],
        identityCount := [(1000, 2), (1001, 1)] })
    ∧ (lookupCount (IdentityReferenceCounter (ReleaseCIDRIdentitiesByID
          { currentID := 1002, ipToIdentity := [],
            identityCount := [(1000, 2), (1001, 1)] } [1000])) 1000
        = lookupCount (IdentityReferenceCounter
            { currentID := 1002, ipToIdentity := [],
              identityCount := [(1000, 2), (1001, 1)] }) 1000
          - List.count 1000 [1000]
      ∧ (memCounter (IdentityReferenceCounter (ReleaseCIDRIdentitiesByID
            { currentID := 1002, ipToIdentity := [],
              identityCount := [(1000, 2), (1001, 1)] } [1000])) 1000 = true
          ↔ List.count 1000 [1000]
              < lookupCount (IdentityReferenceCounter
                  { currentID := 1002, ipToIdentity := [],
                    identityCount := [(1000, 2), (1001, 1)] }) 1000)) :=
  ⟨by decide, ReleaseCIDRIdentitiesByID_refcount _ [1000] 1000 (by decide)⟩

/-- C9: ingesting a valid DNS response fails only if the underlying Identity
Allocator fails; since the fake allocator always succeeds, every call to
`UpdateGenerateDNS` and every call to `notifyOnDNSMsg` returns no error,
regardless of which selectors match the domain. -/
theorem ingest_fails_only_on_allocator_failure :
    (∀ (st : NMState) (records : List (String × List IPv4)),
        ∃ s2, UpdateGenerateDNS st records = .ok s2)
    ∧ (∀ (st : NMState) (msg : DNSMsg),
        ∃ s2, notifyOnDNSMsg st msg = .ok s2) :=
  ⟨fun st records => UpdateGenerateDNS_isOk st records,
   fun st msg => notifyOnDNSMsg_isOk st msg⟩

/-- C10: releasing identities does not modify the allocator's IP-to-identity
mapping or the fresh-identity counter, so re-allocating any IP after an
allocation followed by an arbitrary release returns the same numeric
identity as the original allocation. -/
theorem release_preserves_ip_identity_map (f : FakeRefcountingIdentityAllocator)
    (ids : List Int) (ip : IPv4) :
    (ReleaseCIDRIdentitiesByID f ids).ipToIdentity = f.ipToIdentity
    ∧ (ReleaseCIDRIdentitiesByID f ids).currentID = f.currentID
    ∧ (allocateCore (ReleaseCIDRIdentitiesByID (allocateCore f [ip]).snd ids)
          [ip]).fst
        = (allocateCore f [ip]).fst := by
  refine ⟨rfl, rfl, ?_⟩
  unfold allocateCore
  simp only [List.foldl_cons, List.foldl_nil]
  cases hl : lookupIP f.ipToIdentity ip with
  | some id =>
      simp [allocateStep, ReleaseCIDRIdentitiesByID, hl]
  | none =>
      have h2 : lookupIP (f.ipToIdentity ++ [(ip, f.currentID)]) ip
          = some f.currentID := lookupIP_append_self _ _ _ hl
      simp [allocateStep, ReleaseCIDRIdentitiesByID, hl, h2]

end Cilium
